import Mathlib

/-!
Verification of the CLDR locale extension of the js-joda formatter builder
(`CldrDateTimeFormatterBuilder.js`).  The builder methods are embedded
directly from the source; the `assert` helpers and the text printer/parser
engine, which are part of the repository but outside the provided source
tree, are modelled from the specification and marked as such.
-/

namespace JsJodaLocale

/-- Text styles of the formatter library (spec section 3: FULL, FULL_STANDALONE,
SHORT, SHORT_STANDALONE, NARROW, NARROW_STANDALONE). -/
inductive TextStyle
  | FULL
  | FULL_STANDALONE
  | SHORT
  | SHORT_STANDALONE
  | NARROW
  | NARROW_STANDALONE
  deriving DecidableEq, Repr

/-- Calendar field identifiers (`ChronoField` of js-joda); the builder treats
them opaquely, checking only that the argument is an instance of the class. -/
inductive ChronoField
  | ERA
  | YEAR
  | MONTH_OF_YEAR
  | DAY_OF_MONTH
  | DAY_OF_WEEK
  | AMPM_OF_DAY
  | HOUR_OF_DAY
  | MINUTE_OF_HOUR
  | SECOND_OF_MINUTE
  deriving DecidableEq, Repr

/-- JavaScript values that can be passed to the builder methods: `undefined`,
`null`, a `ChronoField`, a `TextStyle`, a plain value-to-text map object, or
any other value. -/
inductive JSValue
  | undefined
  | null
  | chronoField (f : ChronoField)
  | textStyle (s : TextStyle)
  | mapObj (m : List (Int × String))
  | other (tag : Nat)
  deriving DecidableEq, Repr

/-- Errors of the spec's taxonomy (section 7): `invalidArgument` for null or
wrong-kind arguments, `notImplemented` for the explicit not-implemented
throws, `invalidMapping` for ambiguous text-store data. -/
inductive JsError
  | invalidArgument (msg : String)
  | notImplemented (msg : String)
  | invalidMapping (msg : String)
  deriving DecidableEq, Repr

/-- The message of the not-implemented throws in the source (lines 22, 26, 135). -/
def notImplementedMessage : String :=
  "js-joda-locale: Pattern using (localized) text not implemented yet!"

/-- Message produced when a required argument is null or missing. -/
def nullArgMessage (name : String) : String :=
  name ++ " must not be null"

/-- Message produced when an argument is not an instance of the required class. -/
def wrongInstanceMessage (name cls : String) : String :=
  name ++ " must be an instance of " ++ cls

/-- Modelled from the spec: `requireNonNull` of the repository's `assert`
module (imported by the source but not under `src/`); per spec section 7 a
null or missing required argument raises `InvalidArgumentError` synchronously. -/
def requireNonNull (x : JSValue) (name : String) : Except JsError Unit :=
  match x with
  | .null => .error (.invalidArgument (nullArgMessage name))
  | .undefined => .error (.invalidArgument (nullArgMessage name))
  | _ => .ok ()

/-- Instance test of the embedding: the `ChronoField` payload of a value. -/
def asChronoField : JSValue → Option ChronoField
  | .chronoField f => some f
  | _ => none

/-- Instance test of the embedding: the `TextStyle` payload of a value. -/
def asTextStyle : JSValue → Option TextStyle
  | .textStyle s => some s
  | _ => none

/-- Modelled from the spec: `requireInstance(x, ChronoField, name)` of the
repository's `assert` module (not under `src/`); per spec section 7 a
wrong-kind `field` argument raises `InvalidArgumentError` synchronously. -/
def requireChronoField (x : JSValue) (name : String) : Except JsError ChronoField :=
  match asChronoField x with
  | some f => .ok f
  | none => .error (.invalidArgument (wrongInstanceMessage name "ChronoField"))

/-- Modelled from the spec: `requireInstance(x, TextStyle, name)` of the
repository's `assert` module (not under `src/`). -/
def requireTextStyle (x : JSValue) (name : String) : Except JsError TextStyle :=
  match asTextStyle x with
  | some s => .ok s
  | none => .error (.invalidArgument (wrongInstanceMessage name "TextStyle"))

/-- One unit of the formatter pipeline held by the builder.  `text f s` is the
`TextPrinterParser(f, s, new CldrDateTimeTextProvider())` appended by
`appendTextFieldStyle`; `ext` stands for printer/parsers appended by other
builder methods, so theorems may quantify over arbitrary prior builder state. -/
inductive PrinterParser
  | text (field : ChronoField) (style : TextStyle)
  | ext (tag : Nat)
  deriving DecidableEq, Repr

/-- Builder state: the sequence of printer/parsers appended so far. -/
abbrev Builder := List PrinterParser

/-- What a builder method returns to its caller when it does not throw:
`thisRef` is `return this` (the builder object itself). -/
inductive RetVal
  | thisRef
  | undefinedVal
  deriving DecidableEq, Repr

/-- Result of one builder method call: the JavaScript return value or the
thrown error, together with the builder state after the call (the source
mutates the builder in place via `_appendInternal`). -/
structure CallResult where
  result : Except JsError RetVal
  builder : Builder
  deriving Repr

/-- Source lines 21-23: `appendLocalizedOffset` unconditionally throws the
not-implemented error. -/
def appendLocalizedOffset (b : Builder) : CallResult :=
  ⟨.error (.notImplemented notImplementedMessage), b⟩

/-- Source lines 25-27: `appendZoneText` unconditionally throws the
not-implemented error. -/
def appendZoneText (b : Builder) : CallResult :=
  ⟨.error (.notImplemented notImplementedMessage), b⟩

/-- Source lines 88-95: `appendTextFieldStyle(field, textStyle)` validates both
arguments, appends a `TextPrinterParser(field, textStyle, CldrDateTimeTextProvider)`
and returns `this`. -/
def appendTextFieldStyle (b : Builder) (field textStyle : JSValue) : CallResult :=
  match requireNonNull field "field" with
  | .error e => ⟨.error e, b⟩
  | .ok _ =>
  match requireChronoField field "field" with
  | .error e => ⟨.error e, b⟩
  | .ok f =>
  match requireNonNull textStyle "textStyle" with
  | .error e => ⟨.error e, b⟩
  | .ok _ =>
  match requireTextStyle textStyle "textStyle" with
  | .error e => ⟨.error e, b⟩
  | .ok ts => ⟨.ok .thisRef, b ++ [.text f ts]⟩

/-- Source lines 69-71: `appendTextField(field)` delegates to
`appendTextFieldStyle(field, TextStyle.FULL)`. -/
def appendTextField (b : Builder) (field : JSValue) : CallResult :=
  appendTextFieldStyle b field (.textStyle .FULL)

/-- Source lines 131-152: `appendTextFieldMap(field, textLookup)` validates its
arguments and then unconditionally throws the not-implemented error; the
custom-map implementation is commented out, so the trailing `return this` is
dead code and no printer/parser is ever appended. -/
def appendTextFieldMap (b : Builder) (field textLookup : JSValue) : CallResult :=
  match requireNonNull field "field" with
  | .error e => ⟨.error e, b⟩
  | .ok _ =>
  match requireChronoField field "field" with
  | .error e => ⟨.error e, b⟩
  | .ok _ =>
  match requireNonNull textLookup "textLookup" with
  | .error e => ⟨.error e, b⟩
  | .ok _ => ⟨.error (.notImplemented notImplementedMessage), b⟩

/-- Modelled from the spec: the Text Store (sections 3 and 4.1) of the text
printer/parser engine (`TextPrinterParser` / `CldrDateTimeTextProvider`, part
of the repository but not under `src/`).  `entries` is the value-to-text
mapping of one (Field, Style, Locale) combination, in registration order. -/
structure TextStore where
  entries : List (Int × String)
  deriving DecidableEq, Repr

/-- Modelled from the spec (section 4.1): a mapping is ambiguous when one text
string is mapped to two different values within the same style. -/
def ambiguousText : List (Int × String) → Bool
  | [] => false
  | (v, t) :: rest => rest.any (fun p => p.2 == t && p.1 != v) || ambiguousText rest

/-- Modelled from the spec (section 4.1): `build` constructs a store and fails
with `InvalidMappingError` on ambiguous data. -/
def buildStore (m : List (Int × String)) : Except JsError TextStore :=
  if ambiguousText m then
    .error (.invalidMapping "duplicate text mapped to two different values")
  else .ok ⟨m⟩

/-- Modelled from the spec (section 4.1): `textFor` is the exact value-to-text
lookup, no style fallback. -/
def textFor (st : TextStore) (v : Int) : Option String :=
  (st.entries.find? (fun p => p.1 == v)).map Prod.snd

/-- Lower-cased character sequence of a string, the normalization used for
case-insensitive candidate matching. -/
def lowerChars (s : String) : List Char :=
  s.data.map Char.toLower

/-- Boolean prefix test on character lists. -/
def isPre : List Char → List Char → Bool
  | [], _ => true
  | _ :: _, [] => false
  | a :: as, b :: bs => a == b && isPre as bs

/-- Modelled from the spec (section 4.3 step 2): case-insensitive test whether
the remaining input starts with a candidate text. -/
def ciStartsWith (input cand : String) : Bool :=
  isPre (lowerChars cand) (lowerChars input)

/-- Stable insertion of a candidate into a list sorted by descending text
length: the new candidate goes before the first strictly shorter one, so
candidates of equal length keep registration order (section 3 invariants). -/
def insertCand (c : String × Int) : List (String × Int) → List (String × Int)
  | [] => [c]
  | d :: ds => if d.1.length ≤ c.1.length then c :: d :: ds else d :: insertCand c ds

/-- Stable sort by descending text length, registration order on ties. -/
def sortCands : List (String × Int) → List (String × Int)
  | [] => []
  | c :: cs => insertCand c (sortCands cs)

/-- Modelled from the spec (sections 3 and 4.1): the parse-candidates view of a
store, (text, value) pairs sorted longest-first; zero-length texts are never
exposed. -/
def parseCandidates (st : TextStore) : List (String × Int) :=
  sortCands ((st.entries.filter (fun p => p.2 != "")).map (fun p => (p.2, p.1)))

/-- Modelled from the spec (section 4.3): printing emits the provider's text
verbatim when present, else the signed decimal representation of the value. -/
def printValue (st : TextStore) (v : Int) : String :=
  match textFor st v with
  | some t => t
  | none => toString v

/-- Longest digit run at the head of a character list, with the rest. -/
def takeDigits : List Char → List Char × List Char
  | [] => ([], [])
  | c :: cs =>
    if c.isDigit then
      let r := takeDigits cs
      (c :: r.1, r.2)
    else ([], c :: cs)

/-- Numeric value of a digit run. -/
def digitsToNat (ds : List Char) : Nat :=
  ds.foldl (fun acc c => acc * 10 + (c.toNat - 48)) 0

/-- Modelled from the spec (sections 4.3 and 6): the pipeline's numeric
fallback parser; consumes an optional sign and a maximal digit run. -/
def parseNumericFallback (input : String) : Option (Int × Nat) :=
  match input.data with
  | '-' :: rest =>
    let ds := (takeDigits rest).1
    if ds.isEmpty then none else some (-(digitsToNat ds : Int), ds.length + 1)
  | l =>
    let ds := (takeDigits l).1
    if ds.isEmpty then none else some ((digitsToNat ds : Int), ds.length)

/-- Modelled from the spec (section 4.3): parsing scans the longest-first
candidates with the case-insensitive prefix test; the first match consumes the
candidate's length and yields its value; with no text match it delegates to
the numeric fallback at the same position. -/
def parseField (st : TextStore) (input : String) : Option (Int × Nat) :=
  match (parseCandidates st).find? (fun c => ciStartsWith input c.1) with
  | some c => some (c.2, c.1.length)
  | none => parseNumericFallback input

/-- Source lines 44-52: `appendText(field, styleOrMap)` dispatches by argument
shape: `undefined` to `appendTextField`, a `TextStyle` instance to
`appendTextFieldStyle`, anything else to `appendTextFieldMap`. -/
def appendText (b : Builder) (field styleOrMap : JSValue) : CallResult :=
  match styleOrMap with
  | .undefined => appendTextField b field
  | .textStyle _ => appendTextFieldStyle b field styleOrMap
  | _ => appendTextFieldMap b field styleOrMap

end JsJodaLocale

namespace JsJodaLocale

/-- Helper: a successful `appendTextFieldStyle` call returned `this`. -/
theorem appendTextFieldStyle_ok (b : Builder) (field ts : JSValue) (r : RetVal)
    (h : (appendTextFieldStyle b field ts).result = .ok r) : r = .thisRef := by
  cases field <;> cases ts <;>
    simp [appendTextFieldStyle, requireNonNull, requireChronoField, requireTextStyle,
      asChronoField, asTextStyle] at h <;> exact h.symm

/-- Helper: a successful `appendTextFieldMap` call returned `this`. -/
theorem appendTextFieldMap_ok (b : Builder) (field tl : JSValue) (r : RetVal)
    (h : (appendTextFieldMap b field tl).result = .ok r) : r = .thisRef := by
  cases field <;> cases tl <;>
    simp [appendTextFieldMap, requireNonNull, requireChronoField,
      asChronoField] at h

end JsJodaLocale

namespace JsJodaLocale

/-- Claim C2: for every non-null `ChronoField` field and non-null map argument,
`appendTextFieldMap` unconditionally raises the not-implemented error and
installs nothing. -/
theorem appendTextFieldMap_throws_not_implemented (b : Builder) (f : ChronoField)
    (textLookup : JSValue) (h1 : textLookup ≠ .null) (h2 : textLookup ≠ .undefined) :
    appendTextFieldMap b (.chronoField f) textLookup =
      ⟨.error (.notImplemented notImplementedMessage), b⟩ := by
  cases textLookup <;> first | rfl | exact absurd rfl h1 | exact absurd rfl h2

/-- Witness for C2 at a concrete field and map. -/
theorem appendTextFieldMap_throws_not_implemented_witness :
    appendTextFieldMap [] (.chronoField .MONTH_OF_YEAR) (.mapObj [(1, "JNY"), (2, "FBY")]) =
      ⟨.error (.notImplemented notImplementedMessage), []⟩ :=
  appendTextFieldMap_throws_not_implemented [] .MONTH_OF_YEAR _
    (fun h => JSValue.noConfusion h) (fun h => JSValue.noConfusion h)

/-- Claim C3: `appendLocalizedOffset` and `appendZoneText` fail with the
not-implemented error in every builder state and append nothing. -/
theorem appendLocalizedOffset_appendZoneText_always_throw (b : Builder) :
    appendLocalizedOffset b = ⟨.error (.notImplemented notImplementedMessage), b⟩ ∧
    appendZoneText b = ⟨.error (.notImplemented notImplementedMessage), b⟩ :=
  ⟨rfl, rfl⟩

/-- Claim C5: `appendText` dispatches purely by the shape of its second
argument: absent to `appendTextField`, a `TextStyle` to `appendTextFieldStyle`,
anything else to `appendTextFieldMap`. -/
theorem appendText_dispatch_by_shape (b : Builder) (field styleOrMap : JSValue) :
    (styleOrMap = .undefined → appendText b field styleOrMap = appendTextField b field) ∧
    (∀ s, styleOrMap = .textStyle s →
      appendText b field styleOrMap = appendTextFieldStyle b field styleOrMap) ∧
    (styleOrMap ≠ .undefined → (∀ s, styleOrMap ≠ .textStyle s) →
      appendText b field styleOrMap = appendTextFieldMap b field styleOrMap) := by
  refine ⟨fun h => ?_, fun s h => ?_, fun h1 h2 => ?_⟩ <;> cases styleOrMap <;>
    first
      | rfl
      | exact absurd h (by simp)
      | exact absurd rfl h1
      | exact absurd rfl (h2 _)

/-- Witness for C5: a plain map object is dispatched to the custom-map form. -/
theorem appendText_dispatch_by_shape_witness :
    appendText [] (.chronoField .MONTH_OF_YEAR) (.mapObj [(1, "JNY")]) =
      appendTextFieldMap [] (.chronoField .MONTH_OF_YEAR) (.mapObj [(1, "JNY")]) :=
  (appendText_dispatch_by_shape [] (.chronoField .MONTH_OF_YEAR) (.mapObj [(1, "JNY")])).2.2
    (fun h => JSValue.noConfusion h) (fun _ h => JSValue.noConfusion h)

/-- Claim C6: the one-argument form equals the explicit-style form with FULL. -/
theorem appendTextField_defaults_full_style (b : Builder) (field : JSValue) :
    appendTextField b field = appendTextFieldStyle b field (.textStyle .FULL) :=
  rfl

/-- Claim C7: every form of the append-text operation, when it does not throw,
returns the builder object itself (`this`). -/
theorem append_text_returns_this (b : Builder) (field styleOrMap : JSValue) (r : RetVal) :
    ((appendText b field styleOrMap).result = .ok r → r = .thisRef) ∧
    ((appendTextField b field).result = .ok r → r = .thisRef) ∧
    ((appendTextFieldStyle b field styleOrMap).result = .ok r → r = .thisRef) ∧
    ((appendTextFieldMap b field styleOrMap).result = .ok r → r = .thisRef) := by
  refine ⟨?_, appendTextFieldStyle_ok b field _ r,
    appendTextFieldStyle_ok b field styleOrMap r, appendTextFieldMap_ok b field styleOrMap r⟩
  cases styleOrMap with
  | undefined => exact appendTextFieldStyle_ok b field _ r
  | textStyle s => exact appendTextFieldStyle_ok b field _ r
  | null => exact appendTextFieldMap_ok b field _ r
  | chronoField f => exact appendTextFieldMap_ok b field _ r
  | mapObj m => exact appendTextFieldMap_ok b field _ r
  | other t => exact appendTextFieldMap_ok b field _ r

/-- Witness for C7: a successful call returns `this`. -/
theorem append_text_returns_this_witness :
    (appendText [] (.chronoField .ERA) (.textStyle .SHORT)).result = .ok .thisRef ∧
    RetVal.thisRef = .thisRef :=
  ⟨rfl, (append_text_returns_this [] (.chronoField .ERA) (.textStyle .SHORT) .thisRef).1 rfl⟩

/-- Claim C9: `appendText(field, null)` is dispatched to the custom-map form
and fails with the null-argument error on `textLookup`; it does not fall back
to the default FULL-style form. -/
theorem appendText_null_dispatches_to_map_form (b : Builder) (f : ChronoField) :
    appendText b (.chronoField f) .null = appendTextFieldMap b (.chronoField f) .null ∧
    (appendText b (.chronoField f) .null).result =
      .error (.invalidArgument (nullArgMessage "textLookup")) ∧
    (appendText b (.chronoField f) .null).builder = b :=
  ⟨rfl, rfl, rfl⟩

/-- Claim C10: the always-failing operations never touch the printer/parser
sequence: the builder state after the call equals the state before it. -/
theorem failing_ops_leave_builder_unchanged (b : Builder) (field textLookup : JSValue) :
    ((∃ e, (appendTextFieldMap b field textLookup).result = .error e) ∧
      (appendTextFieldMap b field textLookup).builder = b) ∧
    ((∃ e, (appendLocalizedOffset b).result = .error e) ∧
      (appendLocalizedOffset b).builder = b) ∧
    ((∃ e, (appendZoneText b).result = .error e) ∧ (appendZoneText b).builder = b) := by
  refine ⟨?_, ⟨⟨_, rfl⟩, rfl⟩, ⟨⟨_, rfl⟩, rfl⟩⟩
  cases field <;> cases textLookup <;> exact ⟨⟨_, rfl⟩, rfl⟩

/-- Claim C4: all forms validate `field`, and the style form validates
`textStyle`, synchronously at call time, failing with `InvalidArgumentError`. -/
theorem append_text_validates_arguments (b : Builder) (field styleOrMap ts : JSValue) :
    (asChronoField field = none →
      (∃ m, (appendText b field styleOrMap).result = .error (.invalidArgument m)) ∧
      (∃ m, (appendTextField b field).result = .error (.invalidArgument m)) ∧
      (∃ m, (appendTextFieldStyle b field ts).result = .error (.invalidArgument m)) ∧
      (∃ m, (appendTextFieldMap b field styleOrMap).result = .error (.invalidArgument m))) ∧
    (asTextStyle ts = none → ∀ f : ChronoField,
      ∃ m, (appendTextFieldStyle b (.chronoField f) ts).result =
        .error (.invalidArgument m)) := by
  constructor
  · intro hf
    cases field <;> simp [asChronoField] at hf <;> cases styleOrMap <;> cases ts <;>
      exact ⟨⟨_, rfl⟩, ⟨_, rfl⟩, ⟨_, rfl⟩, ⟨_, rfl⟩⟩
  · intro hts f
    cases ts <;> simp [asTextStyle] at hts <;> exact ⟨_, rfl⟩

/-- Witness for C4: a null field and a null style are both rejected. -/
theorem append_text_validates_arguments_witness :
    (∃ m, (appendText [] JSValue.null JSValue.undefined).result =
      .error (.invalidArgument m)) ∧
    (∃ m, (appendTextFieldStyle [] (.chronoField .MONTH_OF_YEAR) JSValue.null).result =
      .error (.invalidArgument m)) :=
  ⟨((append_text_validates_arguments [] .null .undefined .null).1 rfl).1,
    (append_text_validates_arguments [] .null .undefined .null).2 rfl .MONTH_OF_YEAR⟩

/-- Claim C1 counterexample: at a concrete field and custom map the call
throws the not-implemented error and appends no printer/parser, so no text is
ever printed or parsed through it. -/
theorem appendTextFieldMap_custom_map_not_installed_cex :
    (appendTextFieldMap [] (.chronoField .MONTH_OF_YEAR)
        (.mapObj [(1, "JNY"), (2, "FBY")])).builder = [] ∧
    (appendTextFieldMap [] (.chronoField .MONTH_OF_YEAR)
        (.mapObj [(1, "JNY"), (2, "FBY")])).result =
      .error (.notImplemented notImplementedMessage) :=
  ⟨rfl, rfl⟩

/-- Claim C1 amended: for every `ChronoField` field and plain value-to-text
map, `appendTextFieldMap` validates its arguments and then fails with the
not-implemented error, leaving the builder unchanged; no custom-map
printer/parser is installed. -/
theorem appendTextFieldMap_rejects_custom_map (b : Builder) (f : ChronoField)
    (m : List (Int × String)) :
    appendTextFieldMap b (.chronoField f) (.mapObj m) =
      ⟨.error (.notImplemented notImplementedMessage), b⟩ :=
  rfl

end JsJodaLocale

namespace JsJodaLocale

/-- Reflexivity of the boolean prefix test. -/
theorem isPre_refl (l : List Char) : isPre l l = true := by
  induction l with
  | nil => rfl
  | cons a as ih => simp [isPre, ih]

/-- A prefix is no longer than the whole. -/
theorem isPre_length {p l : List Char} (h : isPre p l = true) : p.length ≤ l.length := by
  induction p generalizing l with
  | nil => simp
  | cons a as ih =>
    cases l with
    | nil => simp [isPre] at h
    | cons b bs =>
      simp only [isPre, Bool.and_eq_true] at h
      have := ih h.2
      simp only [List.length_cons]
      omega

/-- A prefix of equal length is the whole list. -/
theorem isPre_eq {p l : List Char} (h : isPre p l = true) (hlen : l.length ≤ p.length) :
    p = l := by
  induction p generalizing l with
  | nil =>
    cases l with
    | nil => rfl
    | cons b bs => simp at hlen
  | cons a as ih =>
    cases l with
    | nil => simp [isPre] at h
    | cons b bs =>
      simp only [isPre, Bool.and_eq_true, beq_iff_eq] at h
      simp only [List.length_cons] at hlen
      rw [h.1, ih h.2 (by omega)]

/-- Lower-casing preserves the length. -/
theorem lowerChars_length (s : String) : (lowerChars s).length = s.length := by
  rw [lowerChars, List.length_map]
  rfl

/-- Membership through stable insertion. -/
theorem mem_insertCand {x c : String × Int} {l : List (String × Int)} :
    x ∈ insertCand c l ↔ x = c ∨ x ∈ l := by
  induction l with
  | nil => simp [insertCand]
  | cons d ds ih =>
    simp only [insertCand]
    split
    · simp [List.mem_cons]
    · simp [List.mem_cons, ih]
      tauto

/-- Sorting the candidates changes no membership. -/
theorem mem_sortCands {x : String × Int} {l : List (String × Int)} :
    x ∈ sortCands l ↔ x ∈ l := by
  induction l with
  | nil => simp [sortCands]
  | cons c cs ih => simp [sortCands, mem_insertCand, ih]

/-- Stable insertion preserves the descending-length ordering. -/
theorem pairwise_insertCand {c : String × Int} {l : List (String × Int)}
    (h : l.Pairwise (fun a b => b.1.length ≤ a.1.length)) :
    (insertCand c l).Pairwise (fun a b => b.1.length ≤ a.1.length) := by
  induction l with
  | nil => simp [insertCand]
  | cons d ds ih =>
    rw [List.pairwise_cons] at h
    obtain ⟨hd, hds⟩ := h
    simp only [insertCand]
    split
    · rename_i hle
      refine List.Pairwise.cons ?_ (List.Pairwise.cons hd hds)
      intro x hx
      rcases List.mem_cons.mp hx with rfl | hx
      · exact hle
      · exact le_trans (hd x hx) hle
    · rename_i hgt
      refine List.Pairwise.cons ?_ (ih hds)
      intro x hx
      rcases mem_insertCand.mp hx with rfl | hx
      · omega
      · exact hd x hx

/-- The candidate list is sorted by descending text length. -/
theorem pairwise_sortCands (l : List (String × Int)) :
    (sortCands l).Pairwise (fun a b => b.1.length ≤ a.1.length) := by
  induction l with
  | nil => simp [sortCands]
  | cons c cs ih => exact pairwise_insertCand ih

/-- On a longest-first candidate list containing the printed text itself, the
first case-insensitive match is case-insensitively equal to that text. -/
theorem find_match_lower {t : String} {v : Int} {cs : List (String × Int)}
    (hs : cs.Pairwise (fun a b => b.1.length ≤ a.1.length))
    (hmem : (t, v) ∈ cs) {c : String × Int}
    (hf : cs.find? (fun c => ciStartsWith t c.1) = some c) :
    lowerChars c.1 = lowerChars t := by
  induction cs with
  | nil => cases hmem
  | cons c0 rest ih =>
    rw [List.pairwise_cons] at hs
    cases hp : ciStartsWith t c0.1 with
    | true =>
      have hc : c = c0 := by
        rw [List.find?_cons, hp] at hf
        exact (Option.some_inj.mp hf).symm
      have h1 : c0.1.length ≤ t.length := by
        have hlen := isPre_length (p := lowerChars c0.1) (l := lowerChars t) hp
        simpa [lowerChars_length] using hlen
      have h2 : t.length ≤ c0.1.length := by
        rcases List.mem_cons.mp hmem with heq | hmemr
        · rw [← heq]
        · exact hs.1 _ hmemr
      subst hc
      exact isPre_eq hp (by simp [lowerChars_length]; omega)
    | false =>
      have hmemr : (t, v) ∈ rest := by
        rcases List.mem_cons.mp hmem with heq | hr
        · rw [← heq] at hp
          simp [ciStartsWith, isPre_refl] at hp
        · exact hr
      rw [List.find?_cons, hp] at hf
      exact ih hs.2 hmemr hf

/-- The candidate scan finds something when the printed text itself is a
candidate. -/
theorem find_isSome_of_mem {t : String} {v : Int} {cs : List (String × Int)}
    (hmem : (t, v) ∈ cs) :
    ∃ c, cs.find? (fun c => ciStartsWith t c.1) = some c := by
  induction cs with
  | nil => cases hmem
  | cons c0 rest ih =>
    cases hp : ciStartsWith t c0.1 with
    | true => exact ⟨c0, by rw [List.find?_cons, hp]⟩
    | false =>
      have hmemr : (t, v) ∈ rest := by
        rcases List.mem_cons.mp hmem with heq | hr
        · rw [← heq] at hp
          simp [ciStartsWith, isPre_refl] at hp
        · exact hr
      obtain ⟨c, hc⟩ := ih hmemr
      exact ⟨c, by rw [List.find?_cons, hp]; exact hc⟩

/-- A successful `textFor` lookup names an actual entry of the store. -/
theorem textFor_mem {st : TextStore} {v : Int} {t : String} (h : textFor st v = some t) :
    (v, t) ∈ st.entries := by
  unfold textFor at h
  cases hf : st.entries.find? (fun p => p.1 == v) with
  | none => rw [hf] at h; cases h
  | some p =>
    rw [hf] at h
    have hmem := List.mem_of_find?_eq_some hf
    have hp := List.find?_some hf
    obtain ⟨p1, p2⟩ := p
    simp only [beq_iff_eq] at hp
    simp only [Option.map, Option.some_inj] at h
    rw [← hp, ← h]
    exact hmem
end JsJodaLocale

namespace JsJodaLocale

/-- Claim C8 amended: when the mapping of the (field, style, locale)
combination gives the value a nonempty text and no two entries carry
case-insensitively equal texts for different values, parsing the printed text
recovers the original value. -/
theorem parse_print_roundtrip (st : TextStore) (v : Int) (t : String)
    (hmap : textFor st v = some t) (hne : t ≠ "")
    (hinj : ∀ p ∈ st.entries, ∀ q ∈ st.entries,
      lowerChars p.2 = lowerChars q.2 → p.1 = q.1) :
    (parseField st (printValue st v)).map Prod.fst = some v := by
  have hprint : printValue st v = t := by simp [printValue, hmap]
  rw [hprint]
  have hent : (v, t) ∈ st.entries := textFor_mem hmap
  have hcand : (t, v) ∈ parseCandidates st := by
    rw [parseCandidates, mem_sortCands]
    simp only [List.mem_map, List.mem_filter]
    exact ⟨(v, t), ⟨hent, by simp [hne]⟩, rfl⟩
  obtain ⟨c, hc⟩ := find_isSome_of_mem hcand
  have hlow : lowerChars c.1 = lowerChars t :=
    find_match_lower (pairwise_sortCands _) hcand hc
  have hcmem : (c.2, c.1) ∈ st.entries := by
    have hcin : c ∈ parseCandidates st := List.mem_of_find?_eq_some hc
    rw [parseCandidates, mem_sortCands] at hcin
    simp only [List.mem_map, List.mem_filter] at hcin
    obtain ⟨p, ⟨hpmem, _⟩, hpc⟩ := hcin
    rw [← hpc]
    exact hpmem
  have hv : c.2 = v := hinj (c.2, c.1) hcmem (v, t) hent hlow
  simp [parseField, hc, hv]

/-- Witness for amended C8 at the spec's legacy month map. -/
theorem parse_print_roundtrip_witness :
    (parseField ⟨[(1, "JNY"), (2, "FBY")]⟩
      (printValue ⟨[(1, "JNY"), (2, "FBY")]⟩ 2)).map Prod.fst = some 2 :=
  parse_print_roundtrip ⟨[(1, "JNY"), (2, "FBY")]⟩ 2 "FBY"
    (by decide) (by decide) (by decide)

/-- Claim C8 counterexample: two legal stores on which parse-of-print fails.
With values 1 and 2 mapped to the case-insensitively colliding texts "AB" and
"ab" (accepted by `build`, which only rejects exact duplicates), printing 2
gives "ab" but parsing it yields 1; with value 5 mapped to the empty text,
printing 5 gives "" and parsing it fails entirely. -/
theorem parse_print_roundtrip_cex :
    buildStore [(1, "AB"), (2, "ab")] = .ok ⟨[(1, "AB"), (2, "ab")]⟩ ∧
    textFor ⟨[(1, "AB"), (2, "ab")]⟩ 2 = some "ab" ∧
    (parseField ⟨[(1, "AB"), (2, "ab")]⟩
      (printValue ⟨[(1, "AB"), (2, "ab")]⟩ 2)).map Prod.fst = some 1 ∧
    (1 : Int) ≠ 2 ∧
    buildStore [(5, "")] = .ok ⟨[(5, "")]⟩ ∧
    textFor ⟨[(5, "")]⟩ 5 = some "" ∧
    parseField ⟨[(5, "")]⟩ (printValue ⟨[(5, "")]⟩ 5) = none :=
  ⟨rfl, by decide, by decide, by decide, rfl, by decide, by decide⟩

end JsJodaLocale
